import Mathlib

/-!
Verification development for the kb-odo usage-telemetry scripts.

The repository is a set of Python scripts that inspect, migrate and
sanity-check a SQLite database holding keyboard/mouse/app-usage
telemetry.  This file gives a shallow embedding of the data model and
of the operations the scripts perform, and proves the behavioural
properties stated about them.

Dates are modelled as integer day numbers.  The scripts store dates as
zero-padded ISO `YYYY-MM-DD` strings, whose byte-wise comparison agrees
with chronological order, and do their date arithmetic through
`datetime.timedelta`, which is exact proleptic-Gregorian day
arithmetic; both are captured faithfully by integer day numbers
together with `daysFromCivil` below.
-/

/-- Day number of a proleptic-Gregorian calendar date (days since
1970-01-01).  This mirrors the day arithmetic used by the source via
`datetime`: subtracting `timedelta(days = n)` from a date subtracts `n`
from its day number, and comparison of day numbers agrees with
comparison of the ISO date strings stored in the database. -/
def daysFromCivil (y m d : Int) : Int :=
  let yy : Int := if m ≤ 2 then y - 1 else y
  let era : Int := (if 0 ≤ yy then yy else yy - 399) / 400
  let yoe : Int := yy - era * 400
  let mp : Int := (m + 9) % 12
  let doy : Int := (153 * mp + 2) / 5 + d - 1
  let doe : Int := yoe * 365 + yoe / 4 - yoe / 100 + doy
  era * 146097 + doe - 719468

/-- A row of the `daily_stats` table (src/init_db_with_migration.py,
lines 23-33).  The REAL columns are modelled as rationals. -/
structure DailyRow where
  date : Int
  key_count : Int
  mouse_distance : ℚ
  left_clicks : Int
  right_clicks : Int
  middle_clicks : Int
  scroll_distance : ℚ
deriving DecidableEq

/-- A row of the `hourly_stats` table (src/init_db_with_migration.py,
lines 35-47). -/
structure HourlyRow where
  date : Int
  hour : Int
  key_count : Int
  mouse_distance : ℚ
  left_clicks : Int
  right_clicks : Int
  middle_clicks : Int
  scroll_distance : ℚ
deriving DecidableEq

/-- A row of the `key_stats` table (src/init_db_with_migration.py,
lines 49-57). -/
structure KeyRow where
  date : Int
  hour : Int
  key_code : String
  count : Int
deriving DecidableEq

/-- A row of the `app_usage_stats` table (src/init_db_with_migration.py,
lines 60-68 and src/apply_migration_v4.py, lines 27-35). -/
structure AppUsageRow where
  date : Int
  hour : Int
  app_name : String
  seconds_used : Int
deriving DecidableEq

/-- The four statistics tables of the database. -/
structure Db where
  daily_stats : List DailyRow
  hourly_stats : List HourlyRow
  key_stats : List KeyRow
  app_usage_stats : List AppUsageRow
deriving DecidableEq

/-! ### Retention manager -/

/-- Embeds `test_cutoff_calculation` from src/test_retention_fix.py,
lines 4-14: retention of zero or less means keep forever (no cutoff);
otherwise the cutoff is `today - timedelta(days=retention_days)`.  The
script fixes `today` to 2025-08-09; here it is a parameter, the value
used by the script being `daysFromCivil 2025 8 9`. -/
def test_cutoff_calculation (retention_days today : Int) : Option Int :=
  if retention_days ≤ 0 then none
  else some (today - retention_days)

/-- Modelled from the spec: the Retention Manager operation
`purgeOlderThan` of section 4.5 is not among the source scripts (only
its cutoff rule is, as `test_cutoff_calculation` in
src/test_retention_fix.py).  Per the spec, a non-positive retention is
a deliberate no-op, and otherwise every `DailyStat`, `HourlyStat`,
`KeyStat` and `AppUsageStat` row with `date < cutoff` is deleted, the
cutoff day itself being retained. -/
def purgeOlderThan (retentionDays asOf : Int) (db : Db) : Db :=
  match test_cutoff_calculation retentionDays asOf with
  | none => db
  | some cutoff =>
      { daily_stats := db.daily_stats.filter (fun r => !decide (r.date < cutoff))
        hourly_stats := db.hourly_stats.filter (fun r => !decide (r.date < cutoff))
        key_stats := db.key_stats.filter (fun r => !decide (r.date < cutoff))
        app_usage_stats := db.app_usage_stats.filter (fun r => !decide (r.date < cutoff)) }

/-! ### Integrity and diagnostics -/

/-- Embeds the future-date check of `analyze_database` in
src/analyze_db.py, lines 54-56: the dates of `daily_stats` rows whose
date is strictly greater than today. -/
def findFutureDates (asOf : Int) (db : Db) : List Int :=
  (db.daily_stats.filter (fun r => decide (asOf < r.date))).map (fun r => r.date)

/-! ### Example database states used as concrete witnesses -/

/-- A daily row dated 2025-08-09 (the date appearing in the debug logs
of src/test_retention_fix.py). -/
def rowAug09 : DailyRow :=
  { date := daysFromCivil 2025 8 9, key_count := 5, mouse_distance := 2,
    left_clicks := 1, right_clicks := 0, middle_clicks := 0, scroll_distance := 0 }

/-- A daily row dated 2025-08-10 (a future date relative to 2025-08-09). -/
def rowAug10 : DailyRow :=
  { rowAug09 with date := daysFromCivil 2025 8 10 }

/-- A daily row dated 2025-08-02 (the retained boundary of a 7-day purge
as of 2025-08-09). -/
def rowAug02 : DailyRow :=
  { rowAug09 with date := daysFromCivil 2025 8 2 }

/-- A daily row dated 2025-08-01 (strictly before the 7-day cutoff). -/
def rowAug01 : DailyRow :=
  { rowAug09 with date := daysFromCivil 2025 8 1 }

/-- Example database with data on both sides of the 7-day cutoff and a
row dated exactly at the purge date. -/
def dbRetention : Db :=
  { daily_stats := [rowAug01, rowAug02, rowAug09]
    hourly_stats := [⟨daysFromCivil 2025 8 9, 10, 3, 1, 1, 0, 0, 0⟩]
    key_stats := [⟨daysFromCivil 2025 8 4, 9, "A", 3⟩]
    app_usage_stats := [⟨daysFromCivil 2025 8 9, 10, "Terminal", 900⟩] }

/-- Example database holding a future-dated daily row next to one dated
today, for the diagnostics claims. -/
def dbDiag : Db :=
  { daily_stats := [rowAug09, rowAug10]
    hourly_stats := []
    key_stats := []
    app_usage_stats := [] }

/-! ### Query engine

The four app-usage views (src/init_db_with_migration.py lines 76-113 and
src/apply_migration_v4.py lines 49-86) each group `app_usage_stats` by
`app_name` and sum `seconds_used` over a date window; `today` stands for
the value of the SQL expression date with the localtime modifier. -/

/-- Sum of `seconds_used` over the rows of a given application, the
SUM aggregate of the view definitions. -/
def totalFor (a : String) (rows : List AppUsageRow) : Int :=
  ((rows.filter (fun r => decide (r.app_name = a))).map (fun r => r.seconds_used)).sum

/-- The distinct application names of a row set, the GROUP BY keys. -/
def appNames (rows : List AppUsageRow) : List String :=
  (rows.map (fun r => r.app_name)).dedup

/-- GROUP BY `app_name` with SUM of `seconds_used`: one pair per distinct
application name. -/
def groupSum (rows : List AppUsageRow) : List (String × Int) :=
  (appNames rows).map (fun a => (a, totalFor a rows))

/-- WHERE clause of `app_usage_daily`: date equal to local today. -/
def todayFilter (today : Int) (r : AppUsageRow) : Bool :=
  decide (r.date = today)

/-- WHERE clause of `app_usage_weekly`: date at least local today minus
7 days.  The view has no upper bound on the date. -/
def weeklyFilter (today : Int) (r : AppUsageRow) : Bool :=
  decide (today - 7 ≤ r.date)

/-- WHERE clause of `app_usage_monthly`: date at least local today minus
30 days. -/
def monthlyFilter (today : Int) (r : AppUsageRow) : Bool :=
  decide (today - 30 ≤ r.date)

/-- The view `app_usage_daily`. -/
def app_usage_daily (today : Int) (rows : List AppUsageRow) : List (String × Int) :=
  groupSum (rows.filter (todayFilter today))

/-- The view `app_usage_weekly`. -/
def app_usage_weekly (today : Int) (rows : List AppUsageRow) : List (String × Int) :=
  groupSum (rows.filter (weeklyFilter today))

/-- The view `app_usage_monthly`. -/
def app_usage_monthly (today : Int) (rows : List AppUsageRow) : List (String × Int) :=
  groupSum (rows.filter (monthlyFilter today))

/-- The view `app_usage_lifetime`: no date filter. -/
def app_usage_lifetime (rows : List AppUsageRow) : List (String × Int) :=
  groupSum rows

/-- The four time ranges queried by src/test_fixed_queries.py. -/
inductive TimeRange
  | today
  | weekly
  | monthly
  | lifetime
deriving DecidableEq

/-- The rows a given window ranges over. -/
def windowRows : TimeRange → Int → List AppUsageRow → List AppUsageRow
  | TimeRange.today, t, rows => rows.filter (todayFilter t)
  | TimeRange.weekly, t, rows => rows.filter (weeklyFilter t)
  | TimeRange.monthly, t, rows => rows.filter (monthlyFilter t)
  | TimeRange.lifetime, _, rows => rows

/-- The grouped view a window query reads from. -/
def appUsageView (w : TimeRange) (today : Int) (rows : List AppUsageRow) :
    List (String × Int) :=
  groupSum (windowRows w today rows)

/-- The comparison of the ORDER BY clause in src/test_fixed_queries.py,
lines 12-33: `total_seconds` descending, and nothing else. -/
def bySecondsDesc (a b : String × Int) : Bool :=
  decide (b.2 ≤ a.2)

/-- One possible evaluation of the query of src/test_fixed_queries.py:
the grouped view sorted by `total_seconds` descending. -/
def appUsage (w : TimeRange) (today : Int) (rows : List AppUsageRow) :
    List (String × Int) :=
  (appUsageView w today rows).mergeSort bySecondsDesc

/-- The result sets the SQL query of src/test_fixed_queries.py permits:
SQL fixes the multiset of output rows (a grouping of the view) and
requires them weakly sorted by `total_seconds` descending, but
specifies nothing further about the order of rows with equal totals. -/
def isQueryResult (grouped out : List (String × Int)) : Prop :=
  List.Perm out grouped ∧ List.Pairwise (fun a b => b.2 ≤ a.2) out

/-- The presentation order asserted by the spec for the window queries:
seconds descending with ties broken by app name ascending, the names
compared lexicographically on their characters.  Stated from the words
of the spec, for comparison with the ORDER BY clause actually issued by
the code. -/
def claimedOrder (a b : String × Int) : Prop :=
  b.2 < a.2 ∨ (a.2 = b.2 ∧ a.1.data < b.1.data)

instance : DecidableRel claimedOrder := fun a b => by
  unfold claimedOrder
  infer_instance

/-- The weekly window as claim C6 states it, with an upper bound at
today.  Stated from the words of the spec, for comparison with the view
definition actually created by the code. -/
def app_usage_weekly_claimed (today : Int) (rows : List AppUsageRow) :
    List (String × Int) :=
  groupSum (rows.filter (fun r => decide (today - 7 ≤ r.date) && decide (r.date ≤ today)))

/-- An `app_usage_stats` row dated one day after the reference day 0. -/
def futureRow : AppUsageRow := ⟨1, 0, "FutureApp", 10⟩

/-- Two applications with equal lifetime totals, for the ordering
claims. -/
def tieRows : List AppUsageRow := [⟨0, 0, "B", 5⟩, ⟨0, 0, "A", 5⟩]

/-- Rows for the window-monotonicity witness: one application seen today
and also eight days ago (inside the monthly window only). -/
def spreadRows : List AppUsageRow :=
  [⟨100, 9, "Editor", 30⟩, ⟨92, 9, "Editor", 40⟩, ⟨60, 9, "Editor", 50⟩]

/-! ### Aggregator -/

/-- The `hourly_stats` row of a given date and hour, when present. -/
def hourlyFor (db : Db) (d h : Int) : Option HourlyRow :=
  db.hourly_stats.find? (fun r => decide (r.date = d) && decide (r.hour = h))

/-- A daily row with every measure zero. -/
def zeroDailyRow (d : Int) : DailyRow := ⟨d, 0, 0, 0, 0, 0, 0⟩

/-- Adds the measures of an hourly row onto a daily accumulator. -/
def addHourToDaily (acc : DailyRow) (r : HourlyRow) : DailyRow :=
  { acc with
    key_count := acc.key_count + r.key_count
    mouse_distance := acc.mouse_distance + r.mouse_distance
    left_clicks := acc.left_clicks + r.left_clicks
    right_clicks := acc.right_clicks + r.right_clicks
    middle_clicks := acc.middle_clicks + r.middle_clicks
    scroll_distance := acc.scroll_distance + r.scroll_distance }

/-- One step of the daily recomputation: fold in hour `h` of date `d`
when an hourly row for it exists. -/
def recomputeStep (db : Db) (d : Int) (acc : DailyRow) (h : Nat) : DailyRow :=
  match hourlyFor db d (Int.ofNat h) with
  | some r => addHourToDaily acc r
  | none => acc

/-- The recomputed daily row of date `d`: the sum of the hourly rows of
`d` across hours 0..23, absent hours contributing zero. -/
def recomputeRow (db : Db) (d : Int) : DailyRow :=
  (List.range 24).foldl (recomputeStep db d) (zeroDailyRow d)

/-- Upsert of a daily row, keyed by date: replace the existing row of
that date if there is one, append otherwise. -/
def upsertDaily (row : DailyRow) (ds : List DailyRow) : List DailyRow :=
  if ds.any (fun r => decide (r.date = row.date)) then
    ds.map (fun r => if r.date = row.date then row else r)
  else ds ++ [row]

/-- Modelled from the spec: the Aggregator operation recomputeDaily of
section 4.3 is not among the source scripts (src/analyze_debug_db.py,
lines 33-37, only reads back the hourly sums it maintains).  Per the
spec it recomputes the DailyStat row for `d` as the exact sum, across
all hours 0..23, of the corresponding HourlyStat columns, absent hours
contributing zero, as an upsert rather than an append. -/
def recomputeDaily (d : Int) (db : Db) : Db :=
  { db with daily_stats := upsertDaily (recomputeRow db d) db.daily_stats }

/-- The sum of one measure over the hourly rows of date `d` for hours
0..23, an absent hour contributing zero. -/
def sumHours {α : Type} [Add α] [Zero α] (db : Db) (d : Int) (f : HourlyRow → α) : α :=
  ((List.range 24).map (fun h =>
    match hourlyFor db d (Int.ofNat h) with
    | some r => f r
    | none => 0)).sum

/-- Example database for the aggregation claims: a stale daily row for
day 0 next to two hourly rows of that day. -/
def dbAgg : Db :=
  { daily_stats := [⟨0, 999, 999, 9, 9, 9, 999⟩]
    hourly_stats := [⟨0, 9, 3, 1, 1, 0, 0, 2⟩, ⟨0, 10, 4, 2, 0, 1, 0, 1⟩]
    key_stats := []
    app_usage_stats := [] }

/-! ### Schema manager: migration v4

src/apply_migration_v4.py runs a fixed statement sequence through the
Python sqlite3 module with its default transaction handling: an
implicit transaction is opened only before a data-modification
statement (INSERT, UPDATE, DELETE, REPLACE), while DDL statements
(CREATE TABLE, CREATE INDEX, DROP VIEW, CREATE VIEW) issued while no
transaction is open execute in autocommit mode and are durable at
once; the final `conn.commit()` commits the open DML transaction.  The
model below tracks the committed schema state through the statement
sequence and returns it next to the outcome of the run: on an
exception, the state committed up to the failing statement. -/

/-- The schema-level state the migration script manipulates. -/
structure MigDb where
  hasSchemaVersionTable : Bool
  hasAppUsageTable : Bool
  indexes : List String
  views : List String
  schemaVersions : List Int
  appUsageRows : List AppUsageRow
deriving DecidableEq

/-- SELECT MAX(version) FROM schema_version with the fallback of
src/apply_migration_v4.py, lines 12-18: a missing table, or NULL from
an empty one, is treated as version 0. -/
def currentVersionM (db : MigDb) : Int :=
  if db.hasSchemaVersionTable then (db.schemaVersions.max?).getD 0 else 0

/-- CREATE INDEX IF NOT EXISTS. -/
def createIndexIfNotExists (n : String) (ix : List String) : List String :=
  if n ∈ ix then ix else ix ++ [n]

/-- DROP VIEW IF EXISTS. -/
def dropViewIfExists (n : String) (vs : List String) : List String :=
  vs.filter (fun v => decide (v ≠ n))

/-- The three CREATE INDEX statements of src/apply_migration_v4.py,
lines 38-40. -/
def migIndexes (ix : List String) : List String :=
  createIndexIfNotExists "idx_app_usage_date_app"
    (createIndexIfNotExists "idx_app_usage_app"
      (createIndexIfNotExists "idx_app_usage_date" ix))

/-- The four DROP VIEW IF EXISTS statements of
src/apply_migration_v4.py, lines 43-46. -/
def droppedViews (vs : List String) : List String :=
  dropViewIfExists "app_usage_lifetime"
    (dropViewIfExists "app_usage_monthly"
      (dropViewIfExists "app_usage_weekly"
        (dropViewIfExists "app_usage_daily" vs)))

/-- The DDL prefix of the migration, each statement autocommitted:
CREATE TABLE IF NOT EXISTS app_usage_stats, the three indexes, the
four view drops (src/apply_migration_v4.py, lines 27-46). -/
def mig_ddl (db : MigDb) : MigDb :=
  { db with
    hasAppUsageTable := true
    indexes := migIndexes db.indexes
    views := droppedViews db.views }

/-- The four CREATE VIEW statements of src/apply_migration_v4.py,
lines 49-86, in order, stopping at the first failure; each successful
creation is already committed when a later one fails. -/
def createViews (db : MigDb) : MigDb × Except String Unit :=
  if "app_usage_daily" ∈ db.views then
    (db, Except.error "view app_usage_daily exists")
  else if "app_usage_weekly" ∈ db.views ++ ["app_usage_daily"] then
    ({ db with views := db.views ++ ["app_usage_daily"] },
     Except.error "view app_usage_weekly exists")
  else if "app_usage_monthly" ∈ (db.views ++ ["app_usage_daily"]) ++ ["app_usage_weekly"] then
    ({ db with views := (db.views ++ ["app_usage_daily"]) ++ ["app_usage_weekly"] },
     Except.error "view app_usage_monthly exists")
  else if "app_usage_lifetime" ∈
      ((db.views ++ ["app_usage_daily"]) ++ ["app_usage_weekly"]) ++ ["app_usage_monthly"] then
    ({ db with views :=
        ((db.views ++ ["app_usage_daily"]) ++ ["app_usage_weekly"]) ++ ["app_usage_monthly"] },
     Except.error "view app_usage_lifetime exists")
  else
    ({ db with views :=
        (((db.views ++ ["app_usage_daily"]) ++ ["app_usage_weekly"]) ++
          ["app_usage_monthly"]) ++ ["app_usage_lifetime"] },
     Except.ok ())

/-- INSERT OR IGNORE INTO app_usage_stats
(src/apply_migration_v4.py, lines 101-105): the new row is dropped when
a row with the same (date, hour, app_name) key already exists. -/
def insertOrIgnoreApp (today hour : Int) (app : String) (secs : Int)
    (rows : List AppUsageRow) : List AppUsageRow :=
  if rows.any (fun r => decide (r.date = today) && decide (r.hour = hour) &&
      decide (r.app_name = app)) then rows
  else rows ++ [⟨today, hour, app, secs⟩]

/-- The three sample rows of src/apply_migration_v4.py, lines 95-105,
inserted in order. -/
def insertSamples (today hour : Int) (rows : List AppUsageRow) : List AppUsageRow :=
  insertOrIgnoreApp today hour "Chrome" 600
    (insertOrIgnoreApp today hour "Terminal" 900
      (insertOrIgnoreApp today hour "Visual Studio Code" 1800 rows))

/-- Embeds `apply_migration_v4` from src/apply_migration_v4.py: no-op
at version 4 or higher, otherwise the DDL prefix runs autocommitted,
the version row insert opens the one write transaction (and fails when
the `schema_version` table is absent, which the script explicitly
tolerates during its version probe), and the sample inserts are
committed together with the version row. -/
def apply_migration_v4 (today hour : Int) (db : MigDb) : MigDb × Except String Unit :=
  if 4 ≤ currentVersionM db then (db, Except.ok ())
  else
    match createViews (mig_ddl db) with
    | (db, Except.error e) => (db, Except.error e)
    | (db, Except.ok _) =>
      if !db.hasSchemaVersionTable then
        (db, Except.error "no such table: schema_version")
      else
        ({ db with
            schemaVersions := db.schemaVersions.filter (fun v => decide (v ≠ 4)) ++ [4]
            appUsageRows := insertSamples today hour db.appUsageRows },
         Except.ok ())

/-- The committed state after the DDL prefix and the four view
creations. -/
def ddlState (db : MigDb) : MigDb :=
  { db with
    hasAppUsageTable := true
    indexes := migIndexes db.indexes
    views :=
      (((droppedViews db.views ++ ["app_usage_daily"]) ++ ["app_usage_weekly"]) ++
        ["app_usage_monthly"]) ++ ["app_usage_lifetime"] }

/-- The committed state after a successful migration run. -/
def migratedState (today hour : Int) (db : MigDb) : MigDb :=
  { ddlState db with
    schemaVersions := db.schemaVersions.filter (fun v => decide (v ≠ 4)) ++ [4]
    appUsageRows := insertSamples today hour db.appUsageRows }

/-- The `seconds_used` of the `app_usage_stats` row with a given key,
when present. -/
def lookupSeconds (d h : Int) (a : String) (rows : List AppUsageRow) : Option Int :=
  (rows.find? (fun r => decide (r.date = d) && decide (r.hour = h) &&
    decide (r.app_name = a))).map (fun r => r.seconds_used)

/-- A fresh database file: no tables at all, treated as version 0 by
the version probe of the migration script. -/
def emptyMigDb : MigDb :=
  { hasSchemaVersionTable := false
    hasAppUsageTable := false
    indexes := []
    views := []
    schemaVersions := []
    appUsageRows := [] }

/-- A version-3 database that already holds an app-usage row for the
key the migration will also try to insert. -/
def dbV3 : MigDb :=
  { hasSchemaVersionTable := true
    hasAppUsageTable := true
    indexes := []
    views := []
    schemaVersions := [3]
    appUsageRows := [⟨0, 12, "Visual Studio Code", 42⟩] }

/-! ### Theorems: retention -/

/-- C1: for every asOf date and every retentionDays less than or equal
to zero, `purgeOlderThan` is a no-op: the database, and in particular
every row of the four tables and all row counts, is unchanged,
including rows dated asOf itself. -/
theorem purgeOlderThan_nonpos_noop (retentionDays asOf : Int) (db : Db)
    (h : retentionDays ≤ 0) : purgeOlderThan retentionDays asOf db = db := by
  unfold purgeOlderThan test_cutoff_calculation
  rw [if_pos h]

/-- Witness for C1 at retention 0 and -5, asOf 2025-08-09, on a database
with rows dated asOf itself. -/
theorem purgeOlderThan_nonpos_noop_witness :
    purgeOlderThan 0 (daysFromCivil 2025 8 9) dbRetention = dbRetention ∧
    purgeOlderThan (-5) (daysFromCivil 2025 8 9) dbRetention = dbRetention :=
  ⟨purgeOlderThan_nonpos_noop 0 (daysFromCivil 2025 8 9) dbRetention (by decide),
   purgeOlderThan_nonpos_noop (-5) (daysFromCivil 2025 8 9) dbRetention (by decide)⟩

/-- C2: for every positive retentionDays, the cutoff is the asOf date
minus retentionDays days, and the purge keeps in each of the four
tables exactly the rows dated cutoff or later, deleting exactly those
strictly before the cutoff; for the concrete instance of the claim,
2025-08-09 minus 7 days is 2025-08-02. -/
theorem purgeOlderThan_pos_exact (retentionDays asOf : Int) (db : Db)
    (h : 0 < retentionDays) :
    test_cutoff_calculation retentionDays asOf = some (asOf - retentionDays) ∧
    (∀ r, r ∈ (purgeOlderThan retentionDays asOf db).daily_stats ↔
        r ∈ db.daily_stats ∧ asOf - retentionDays ≤ r.date) ∧
    (∀ r, r ∈ (purgeOlderThan retentionDays asOf db).hourly_stats ↔
        r ∈ db.hourly_stats ∧ asOf - retentionDays ≤ r.date) ∧
    (∀ r, r ∈ (purgeOlderThan retentionDays asOf db).key_stats ↔
        r ∈ db.key_stats ∧ asOf - retentionDays ≤ r.date) ∧
    (∀ r, r ∈ (purgeOlderThan retentionDays asOf db).app_usage_stats ↔
        r ∈ db.app_usage_stats ∧ asOf - retentionDays ≤ r.date) ∧
    daysFromCivil 2025 8 9 - 7 = daysFromCivil 2025 8 2 := by
  have hc : test_cutoff_calculation retentionDays asOf = some (asOf - retentionDays) := by
    unfold test_cutoff_calculation
    rw [if_neg (by omega)]
  refine ⟨hc, ?_, ?_, ?_, ?_, by decide⟩ <;>
    · intro r
      unfold purgeOlderThan
      rw [hc]
      simp [List.mem_filter, not_lt]

/-- Witness for C2: purging with retention 7 as of 2025-08-09 keeps the
row dated 2025-08-02 and deletes the row dated 2025-08-01. -/
theorem purgeOlderThan_pos_exact_witness :
    (rowAug02 ∈ (purgeOlderThan 7 (daysFromCivil 2025 8 9) dbRetention).daily_stats ↔
      rowAug02 ∈ dbRetention.daily_stats ∧
        daysFromCivil 2025 8 9 - 7 ≤ rowAug02.date) ∧
    (rowAug01 ∈ (purgeOlderThan 7 (daysFromCivil 2025 8 9) dbRetention).daily_stats ↔
      rowAug01 ∈ dbRetention.daily_stats ∧
        daysFromCivil 2025 8 9 - 7 ≤ rowAug01.date) :=
  ⟨(purgeOlderThan_pos_exact 7 (daysFromCivil 2025 8 9) dbRetention (by decide)).2.1 rowAug02,
   (purgeOlderThan_pos_exact 7 (daysFromCivil 2025 8 9) dbRetention (by decide)).2.1 rowAug01⟩

/-! ### Theorems: diagnostics -/

/-- C8: `findFutureDates` flags exactly the daily rows dated strictly
after asOf, never mutating anything; concretely, with asOf 2025-08-09 a
row dated 2025-08-10 is flagged and one dated 2025-08-09 is not. -/
theorem findFutureDates_exact :
    (∀ asOf (db : Db) d, d ∈ findFutureDates asOf db ↔
      ∃ r ∈ db.daily_stats, r.date = d ∧ asOf < d) ∧
    daysFromCivil 2025 8 10 ∈ findFutureDates (daysFromCivil 2025 8 9) dbDiag ∧
    daysFromCivil 2025 8 9 ∉ findFutureDates (daysFromCivil 2025 8 9) dbDiag := by
  refine ⟨?_, by decide, by decide⟩
  intro asOf db d
  unfold findFutureDates
  simp only [List.mem_map, List.mem_filter, decide_eq_true_eq]
  constructor
  · rintro ⟨r, ⟨hr, hlt⟩, rfl⟩
    exact ⟨r, hr, rfl, hlt⟩
  · rintro ⟨r, hr, rfl, hlt⟩
    exact ⟨r, ⟨hr, hlt⟩, rfl⟩

/-! ### Theorems: query engine -/

/-- Membership in a grouped sum: an application appears exactly when it
has a row, and then with the sum of its seconds. -/
theorem mem_groupSum {rows : List AppUsageRow} {a : String} {s : Int} :
    (a, s) ∈ groupSum rows ↔ (∃ r ∈ rows, r.app_name = a) ∧ s = totalFor a rows := by
  unfold groupSum appNames
  simp only [List.mem_map, List.mem_dedup, Prod.mk.injEq]
  constructor
  · rintro ⟨x, ⟨r, hr, rfl⟩, rfl, rfl⟩
    exact ⟨⟨r, hr, rfl⟩, rfl⟩
  · rintro ⟨⟨r, hr, rfl⟩, rfl⟩
    exact ⟨r.app_name, ⟨r, hr, rfl⟩, rfl, rfl⟩

/-- C6 amended: `app_usage_weekly` contains exactly the applications
having a row dated at least local today minus 7 days, each with the sum
of its seconds over such rows; the view puts no upper bound on the
date, so rows dated after today are included as well. -/
theorem app_usage_weekly_window (today : Int) (rows : List AppUsageRow)
    (a : String) (s : Int) :
    (a, s) ∈ app_usage_weekly today rows ↔
      (∃ r ∈ rows, r.app_name = a ∧ today - 7 ≤ r.date) ∧
        s = totalFor a (rows.filter (weeklyFilter today)) := by
  unfold app_usage_weekly
  rw [mem_groupSum]
  constructor
  · rintro ⟨⟨r, hr, ha⟩, rfl⟩
    rw [List.mem_filter] at hr
    refine ⟨⟨r, hr.1, ha, ?_⟩, rfl⟩
    have := hr.2
    simpa [weeklyFilter] using this
  · rintro ⟨⟨r, hr, ha, hd⟩, rfl⟩
    exact ⟨⟨r, List.mem_filter.mpr ⟨hr, by simp [weeklyFilter, hd]⟩, ha⟩, rfl⟩

/-- C6 counterexample: on a database whose single row is dated one day
after today, the weekly view as created by the code includes that
future-dated row, while the window stated by the claim excludes it. -/
theorem app_usage_weekly_includes_future :
    app_usage_weekly 0 [futureRow] ≠ app_usage_weekly_claimed 0 [futureRow] ∧
    ("FutureApp", (10 : Int)) ∈ app_usage_weekly 0 [futureRow] ∧
    (0 : Int) < futureRow.date := by decide

/-- C7 amended: for every window, any run of the query returns the
grouped view as a mapping from application to its total seconds over
the window, weakly ordered by descending totals; the sorted evaluation
`appUsage` is such a run.  The relative order of applications with
equal totals is not constrained by the query. -/
theorem appUsage_query_spec (w : TimeRange) (today : Int) (rows : List AppUsageRow) :
    isQueryResult (appUsageView w today rows) (appUsage w today rows) ∧
    (∀ a s, (a, s) ∈ appUsage w today rows ↔
      (∃ r ∈ windowRows w today rows, r.app_name = a) ∧
        s = totalFor a (windowRows w today rows)) := by
  have hperm := List.mergeSort_perm (appUsageView w today rows) bySecondsDesc
  have htrans : ∀ a b c : String × Int, bySecondsDesc a b = true →
      bySecondsDesc b c = true → bySecondsDesc a c = true := by
    intro a b c h1 h2
    simp only [bySecondsDesc, decide_eq_true_eq] at *
    omega
  have htotal : ∀ a b : String × Int, (bySecondsDesc a b || bySecondsDesc b a) = true := by
    intro a b
    simp only [bySecondsDesc, Bool.or_eq_true, decide_eq_true_eq]
    omega
  constructor
  · refine ⟨hperm, ?_⟩
    have hs := @List.sorted_mergeSort (String × Int) bySecondsDesc htrans htotal
      (appUsageView w today rows)
    exact hs.imp (fun h => by simpa [bySecondsDesc] using h)
  · intro a s
    unfold appUsage at hperm ⊢
    rw [hperm.mem_iff]
    unfold appUsageView
    exact mem_groupSum

/-- C7 counterexample: on two applications with equal totals the query
admits two distinct orders, one of which violates the tie-break by
ascending application name that the claim asserts, so the output order
is not deterministic. -/
theorem appUsage_order_not_deterministic :
    isQueryResult (appUsageView TimeRange.lifetime 0 tieRows) [("B", 5), ("A", 5)] ∧
    isQueryResult (appUsageView TimeRange.lifetime 0 tieRows) [("A", 5), ("B", 5)] ∧
    [("B", (5 : Int)), ("A", 5)] ≠ [("A", 5), ("B", 5)] ∧
    ¬ List.Pairwise claimedOrder [("B", (5 : Int)), ("A", 5)] := by
  refine ⟨⟨by decide, by decide⟩, ⟨by decide, by decide⟩, by decide, by decide⟩

/-- Expanding a filtered per-application total over a cons cell. -/
theorem totalFor_filter_cons (a : String) (p : AppUsageRow → Bool) (r : AppUsageRow)
    (t : List AppUsageRow) :
    totalFor a ((r :: t).filter p) =
      (if p r && decide (r.app_name = a) then r.seconds_used else 0) +
        totalFor a (t.filter p) := by
  unfold totalFor
  by_cases hp : p r
  · by_cases ha : r.app_name = a
    · simp [List.filter_cons, hp, ha]
    · simp [List.filter_cons, hp, ha]
  · simp [List.filter_cons, hp]

/-- Widening the filter can only grow a per-application total when all
seconds are non-negative. -/
theorem totalFor_filter_mono (a : String) (p q : AppUsageRow → Bool)
    (rows : List AppUsageRow)
    (hpos : ∀ r ∈ rows, 0 ≤ r.seconds_used)
    (himp : ∀ r, p r = true → q r = true) :
    totalFor a (rows.filter p) ≤ totalFor a (rows.filter q) := by
  induction rows with
  | nil => simp [totalFor]
  | cons r t ih =>
      have h0 : 0 ≤ r.seconds_used := hpos r (by simp)
      have ih2 := ih (fun x hx => hpos x (by simp [hx]))
      rw [totalFor_filter_cons, totalFor_filter_cons]
      refine add_le_add ?_ ih2
      by_cases hp : p r = true
      · rw [hp, himp r hp]
      · have hp2 : p r = false := by
          simpa using hp
        rw [hp2, if_neg (by simp)]
        by_cases hq : (q r && decide (r.app_name = a)) = true
        · rw [if_pos hq]
          exact h0
        · rw [if_neg hq]

/-- C9: when every `seconds_used` is non-negative, the total of an
application over a narrower window is at most its total over any wider
window, for the nested windows today within weekly within monthly
within lifetime, whenever the application appears in the narrower
window. -/
theorem windowTotals_monotone (today : Int) (rows : List AppUsageRow) (a : String)
    (hpos : ∀ r ∈ rows, 0 ≤ r.seconds_used) :
    ((∃ r ∈ windowRows TimeRange.today today rows, r.app_name = a) →
        totalFor a (windowRows TimeRange.today today rows) ≤
          totalFor a (windowRows TimeRange.weekly today rows)) ∧
    ((∃ r ∈ windowRows TimeRange.weekly today rows, r.app_name = a) →
        totalFor a (windowRows TimeRange.weekly today rows) ≤
          totalFor a (windowRows TimeRange.monthly today rows)) ∧
    ((∃ r ∈ windowRows TimeRange.monthly today rows, r.app_name = a) →
        totalFor a (windowRows TimeRange.monthly today rows) ≤
          totalFor a (windowRows TimeRange.lifetime today rows)) := by
  refine ⟨fun _ => ?_, fun _ => ?_, fun _ => ?_⟩
  · exact totalFor_filter_mono a _ _ rows hpos (fun r h => by
      simp only [todayFilter, decide_eq_true_eq] at h
      simp only [weeklyFilter, decide_eq_true_eq]
      omega)
  · exact totalFor_filter_mono a _ _ rows hpos (fun r h => by
      simp only [weeklyFilter, decide_eq_true_eq] at h
      simp only [monthlyFilter, decide_eq_true_eq]
      omega)
  · have hmono := totalFor_filter_mono a (monthlyFilter today) (fun _ => true) rows hpos
      (fun r _ => rfl)
    simpa [windowRows, List.filter_true] using hmono

/-- Witness for C9: the Editor application appears today, and its total
for today is at most its weekly total. -/
theorem windowTotals_monotone_witness :
    totalFor "Editor" (windowRows TimeRange.today 100 spreadRows) ≤
      totalFor "Editor" (windowRows TimeRange.weekly 100 spreadRows) :=
  (windowTotals_monotone 100 spreadRows "Editor" (by decide)).1 (by decide)

/-! ### Theorems: aggregator -/

/-- The recomputation fold preserves the date of the accumulator. -/
theorem foldl_recomputeStep_date (db : Db) (d : Int) (l : List Nat) (acc : DailyRow) :
    (l.foldl (recomputeStep db d) acc).date = acc.date := by
  induction l generalizing acc with
  | nil => rfl
  | cons h t ih =>
      rw [List.foldl_cons, ih]
      unfold recomputeStep
      cases hourlyFor db d (Int.ofNat h) with
      | some r => rfl
      | none => rfl

/-- Generic column law of the recomputation fold: any measure of the
result is the measure of the accumulator plus the sum of that measure
over the hours folded in. -/
theorem foldl_recomputeStep_col {α : Type} [AddMonoid α]
    (g : DailyRow → α) (f : HourlyRow → α)
    (hg : ∀ acc r, g (addHourToDaily acc r) = g acc + f r)
    (db : Db) (d : Int) (l : List Nat) (acc : DailyRow) :
    g (l.foldl (recomputeStep db d) acc) =
      g acc + ((l.map (fun h =>
        match hourlyFor db d (Int.ofNat h) with
        | some r => f r
        | none => 0)).sum) := by
  induction l generalizing acc with
  | nil => simp
  | cons h t ih =>
      rw [List.foldl_cons, ih, List.map_cons, List.sum_cons]
      unfold recomputeStep
      cases hh : hourlyFor db d (Int.ofNat h) with
      | some r => rw [hg, add_assoc]
      | none => rw [zero_add]

/-- The date of the recomputed daily row. -/
theorem recomputeRow_date (db : Db) (d : Int) : (recomputeRow db d).date = d :=
  foldl_recomputeStep_date db d (List.range 24) (zeroDailyRow d)

/-- A member of an upsert carrying the key of the upserted row is that
row. -/
theorem upsert_mem_date {row : DailyRow} {ds : List DailyRow} {x : DailyRow}
    (hx : x ∈ upsertDaily row ds) (hdate : x.date = row.date) : x = row := by
  unfold upsertDaily at hx
  by_cases h : ds.any (fun r => decide (r.date = row.date)) = true
  · rw [if_pos h] at hx
    rcases List.mem_map.mp hx with ⟨y, _, rfl⟩
    by_cases hy : y.date = row.date
    · rw [if_pos hy]
    · rw [if_neg hy] at hdate ⊢
      exact absurd hdate hy
  · rw [if_neg h] at hx
    rcases List.mem_append.mp hx with h1 | h2
    · simp only [List.any_eq_true, decide_eq_true_eq] at h
      push_neg at h
      exact absurd hdate (h x h1)
    · simpa using h2

/-- On a list with pairwise distinct dates holding some row of date
`dd`, exactly one row of date `dd` remains after filtering. -/
theorem filter_date_length_one {l : List DailyRow} {dd : Int}
    (hnodup : List.Pairwise (fun a b => a.date ≠ b.date) l)
    (hex : ∃ r ∈ l, r.date = dd) :
    (l.filter (fun r => decide (r.date = dd))).length = 1 := by
  induction l with
  | nil => simp at hex
  | cons a t ih =>
      rw [List.pairwise_cons] at hnodup
      by_cases ha : a.date = dd
      · rw [List.filter_cons_of_pos (by simpa using ha)]
        have ht : t.filter (fun r => decide (r.date = dd)) = [] := by
          rw [List.filter_eq_nil_iff]
          intro y hy
          simp only [decide_eq_true_eq]
          exact fun hyd => (hnodup.1 y hy) (ha.trans hyd.symm)
        rw [ht]
        rfl
      · rw [List.filter_cons_of_neg (by simpa using ha)]
        apply ih hnodup.2
        rcases hex with ⟨r, hr, hrd⟩
        rcases List.mem_cons.mp hr with h1 | h2
        · exact absurd (h1 ▸ hrd) ha
        · exact ⟨r, h2, hrd⟩

/-- Rows with a given date in an upsert on a date-unique list: exactly
one. -/
theorem upsert_filter_length {row : DailyRow} {ds : List DailyRow}
    (hnodup : List.Pairwise (fun a b => a.date ≠ b.date) ds) :
    ((upsertDaily row ds).filter (fun r => decide (r.date = row.date))).length = 1 := by
  unfold upsertDaily
  by_cases h : ds.any (fun r => decide (r.date = row.date)) = true
  · rw [if_pos h, List.filter_map, List.length_map]
    have hcong : ds.filter ((fun r => decide (r.date = row.date)) ∘
        (fun r => if r.date = row.date then row else r)) =
        ds.filter (fun r => decide (r.date = row.date)) := by
      apply List.filter_congr
      intro x _
      by_cases hx : x.date = row.date
      · simp [hx]
      · simp [hx]
    rw [hcong]
    apply filter_date_length_one hnodup
    simpa only [List.any_eq_true, decide_eq_true_eq] using h
  · rw [if_neg h, List.filter_append]
    have h1 : ds.filter (fun r => decide (r.date = row.date)) = [] := by
      rw [List.filter_eq_nil_iff]
      intro y hy
      simp only [List.any_eq_true, decide_eq_true_eq] at h
      push_neg at h
      simp only [decide_eq_true_eq]
      exact h y hy
    rw [h1]
    simp

/-- Upserting the same row twice is the same as upserting it once. -/
theorem upsertDaily_idem (row : DailyRow) (ds : List DailyRow) :
    upsertDaily row (upsertDaily row ds) = upsertDaily row ds := by
  unfold upsertDaily
  by_cases h : ds.any (fun r => decide (r.date = row.date)) = true
  · rw [if_pos h]
    rcases List.any_eq_true.mp h with ⟨x, hx, hxd⟩
    simp only [decide_eq_true_eq] at hxd
    have h2 : (ds.map (fun r => if r.date = row.date then row else r)).any
        (fun r => decide (r.date = row.date)) = true := by
      rw [List.any_eq_true]
      refine ⟨row, List.mem_map.mpr ⟨x, hx, by rw [if_pos hxd]⟩, by simp⟩
    rw [if_pos h2, List.map_map]
    apply List.map_congr_left
    intro y _
    by_cases hy : y.date = row.date
    · simp [Function.comp, hy]
    · simp [Function.comp, hy]
  · rw [if_neg h]
    have h2 : ((ds ++ [row]).any (fun r => decide (r.date = row.date))) = true := by
      rw [List.any_eq_true]
      exact ⟨row, List.mem_append.mpr (Or.inr (by simp)), by simp⟩
    rw [if_pos h2, List.map_append]
    congr 1
    · have hds : ∀ y ∈ ds, (if y.date = row.date then row else y) = y := by
        intro y hy
        simp only [List.any_eq_true, decide_eq_true_eq] at h
        push_neg at h
        rw [if_neg (h y hy)]
      calc ds.map (fun r => if r.date = row.date then row else r)
          = ds.map id := List.map_congr_left (by simpa using hds)
        _ = ds := List.map_id ds
    · simp

/-- C5: after recomputeDaily, every daily row dated `d` carries, column
by column, the sum over hours 0..23 of the hourly columns of `d`
(absent hours contributing zero); on a database whose daily dates are
unique there is exactly one such row; and a second recomputation with
unchanged hourly data changes nothing (upsert, not append). -/
theorem recomputeDaily_spec (d : Int) (db : Db)
    (hnodup : List.Pairwise (fun a b => a.date ≠ b.date) db.daily_stats) :
    (∀ row ∈ (recomputeDaily d db).daily_stats, row.date = d →
        row.key_count = sumHours db d (fun r => r.key_count) ∧
        row.mouse_distance = sumHours db d (fun r => r.mouse_distance) ∧
        row.left_clicks = sumHours db d (fun r => r.left_clicks) ∧
        row.right_clicks = sumHours db d (fun r => r.right_clicks) ∧
        row.middle_clicks = sumHours db d (fun r => r.middle_clicks) ∧
        row.scroll_distance = sumHours db d (fun r => r.scroll_distance)) ∧
    ((recomputeDaily d db).daily_stats.filter (fun r => decide (r.date = d))).length = 1 ∧
    recomputeDaily d (recomputeDaily d db) = recomputeDaily d db := by
  have hdate : (recomputeRow db d).date = d := recomputeRow_date db d
  refine ⟨?_, ?_, ?_⟩
  · intro row hrow hrd
    have hmem : row = recomputeRow db d :=
      upsert_mem_date hrow (by rw [hdate, hrd])
    subst hmem
    refine ⟨?_, ?_, ?_, ?_, ?_, ?_⟩
    · have := foldl_recomputeStep_col (fun x => x.key_count) (fun r => r.key_count)
        (fun _ _ => rfl) db d (List.range 24) (zeroDailyRow d)
      simpa [recomputeRow, sumHours, zeroDailyRow] using this
    · have := foldl_recomputeStep_col (fun x => x.mouse_distance) (fun r => r.mouse_distance)
        (fun _ _ => rfl) db d (List.range 24) (zeroDailyRow d)
      simpa [recomputeRow, sumHours, zeroDailyRow] using this
    · have := foldl_recomputeStep_col (fun x => x.left_clicks) (fun r => r.left_clicks)
        (fun _ _ => rfl) db d (List.range 24) (zeroDailyRow d)
      simpa [recomputeRow, sumHours, zeroDailyRow] using this
    · have := foldl_recomputeStep_col (fun x => x.right_clicks) (fun r => r.right_clicks)
        (fun _ _ => rfl) db d (List.range 24) (zeroDailyRow d)
      simpa [recomputeRow, sumHours, zeroDailyRow] using this
    · have := foldl_recomputeStep_col (fun x => x.middle_clicks) (fun r => r.middle_clicks)
        (fun _ _ => rfl) db d (List.range 24) (zeroDailyRow d)
      simpa [recomputeRow, sumHours, zeroDailyRow] using this
    · have := foldl_recomputeStep_col (fun x => x.scroll_distance) (fun r => r.scroll_distance)
        (fun _ _ => rfl) db d (List.range 24) (zeroDailyRow d)
      simpa [recomputeRow, sumHours, zeroDailyRow] using this
  · have := @upsert_filter_length (recomputeRow db d) db.daily_stats hnodup
    rw [hdate] at this
    exact this
  · show recomputeDaily d { db with
      daily_stats := upsertDaily (recomputeRow db d) db.daily_stats } = _
    unfold recomputeDaily
    have hrow2 : recomputeRow { db with
        daily_stats := upsertDaily (recomputeRow db d) db.daily_stats } d =
        recomputeRow db d := rfl
    rw [hrow2]
    rw [upsertDaily_idem]

/-- Witness for C5 on a concrete database: one row for day 0 after
recomputation, and recomputing twice equals recomputing once. -/
theorem recomputeDaily_spec_witness :
    ((recomputeDaily 0 dbAgg).daily_stats.filter (fun r => decide (r.date = 0))).length = 1 ∧
    recomputeDaily 0 (recomputeDaily 0 dbAgg) = recomputeDaily 0 dbAgg :=
  ⟨(recomputeDaily_spec 0 dbAgg (by decide)).2.1,
   (recomputeDaily_spec 0 dbAgg (by decide)).2.2⟩

/-! ### Theorems: schema manager -/

/-- An initial value bounds the max fold from below. -/
theorem foldl_max_le_init (as : List Int) (a : Int) : a ≤ as.foldl max a := by
  induction as generalizing a with
  | nil => exact le_refl a
  | cons c t ih => exact le_trans (le_max_left a c) (ih (max a c))

/-- Every member bounds the max fold from below. -/
theorem mem_le_foldl_max (as : List Int) (a x : Int) (hx : x ∈ as) :
    x ≤ as.foldl max a := by
  induction as generalizing a with
  | nil => simp at hx
  | cons c t ih =>
      rcases List.mem_cons.mp hx with rfl | h2
      · exact le_trans (le_max_right a x) (foldl_max_le_init t (max a x))
      · exact ih (max a c) h2

/-- A member of the version list bounds the probed maximum version. -/
theorem le_maxD_of_mem {l : List Int} {x : Int} (hx : x ∈ l) :
    x ≤ (l.max?).getD 0 := by
  cases l with
  | nil => simp at hx
  | cons a as =>
      rcases List.mem_cons.mp hx with rfl | h2
      · simpa [List.max?] using foldl_max_le_init as x
      · simpa [List.max?] using mem_le_foldl_max as a x h2

/-- None of the four view names survives the four DROP VIEW IF EXISTS
statements. -/
theorem not_mem_droppedViews (vs : List String) :
    "app_usage_daily" ∉ droppedViews vs ∧ "app_usage_weekly" ∉ droppedViews vs ∧
    "app_usage_monthly" ∉ droppedViews vs ∧ "app_usage_lifetime" ∉ droppedViews vs := by
  refine ⟨?_, ?_, ?_, ?_⟩ <;>
    · intro hmem
      simp [droppedViews, dropViewIfExists, List.mem_filter] at hmem

/-- After the drops, the four view creations all succeed and append the
four views. -/
theorem createViews_ddl (db : MigDb) :
    createViews (mig_ddl db) = (ddlState db, Except.ok ()) := by
  obtain ⟨h1, h2, h3, h4⟩ := not_mem_droppedViews db.views
  have hv : (mig_ddl db).views = droppedViews db.views := rfl
  unfold createViews
  rw [hv]
  rw [if_neg h1]
  rw [if_neg (by simp [List.mem_append, h2])]
  rw [if_neg (by simp [List.mem_append, h3])]
  rw [if_neg (by simp [List.mem_append, h4])]
  rfl

/-- A successful migration run: on a database below version 4 whose
schema_version table exists, the run commits the DDL, one version-4
ledger row, and the sample inserts. -/
theorem apply_migration_v4_run (today hour : Int) (db : MigDb)
    (h4 : currentVersionM db < 4) (hsv : db.hasSchemaVersionTable = true) :
    apply_migration_v4 today hour db = (migratedState today hour db, Except.ok ()) := by
  have h4' : ¬ 4 ≤ currentVersionM db := not_le.mpr h4
  have hb : (ddlState db).hasSchemaVersionTable = true := hsv
  simp only [apply_migration_v4, h4', if_false, createViews_ddl, hb,
    Bool.not_true, migratedState]
  rfl

/-- A migration run against a database without a schema_version table:
the version probe tolerates the missing table, the DDL commits, and
the run then fails at the version-row insert, leaving the DDL durable
and no ledger row. -/
theorem apply_migration_v4_fail (today hour : Int) (db : MigDb)
    (hsv : db.hasSchemaVersionTable = false) :
    apply_migration_v4 today hour db =
      (ddlState db, Except.error "no such table: schema_version") := by
  have h4' : ¬ 4 ≤ currentVersionM db := by
    unfold currentVersionM
    rw [hsv]
    simp
  have hb : (ddlState db).hasSchemaVersionTable = false := hsv
  simp only [apply_migration_v4, h4', if_false, createViews_ddl, hb, Bool.not_false]
  rfl

/-- C3: the migration is not atomic.  Evaluated on a fresh database
(version 0, no schema_version table) — a state the script explicitly
tolerates in its version probe — the run fails at the version-row
insert, yet the committed state already has the app_usage_stats table,
the three indexes and the four views, and no version-ledger row: the
DDL of the failed migration remains committed. -/
theorem apply_migration_v4_not_atomic :
    (apply_migration_v4 0 12 emptyMigDb).2 = Except.error "no such table: schema_version" ∧
    (apply_migration_v4 0 12 emptyMigDb).1.hasAppUsageTable = true ∧
    (apply_migration_v4 0 12 emptyMigDb).1.indexes =
      ["idx_app_usage_date", "idx_app_usage_app", "idx_app_usage_date_app"] ∧
    (apply_migration_v4 0 12 emptyMigDb).1.views =
      ["app_usage_daily", "app_usage_weekly", "app_usage_monthly", "app_usage_lifetime"] ∧
    (apply_migration_v4 0 12 emptyMigDb).1.schemaVersions = [] ∧
    emptyMigDb.hasAppUsageTable = false ∧
    (apply_migration_v4 0 12 emptyMigDb).1 ≠ emptyMigDb :=
  ⟨rfl, rfl, rfl, rfl, rfl, rfl, by decide⟩

/-- C4: the migration is a no-op at version 4 or higher; run against a
database below version 4 whose schema_version table exists, it
succeeds, leaves exactly one version-4 ledger entry, and a second run
returns the state of the first run unchanged, with no error — in
particular the app_usage_stats row count does not change between the
two runs and no view is redefined. -/
theorem apply_migration_v4_idempotent (today hour : Int) (db : MigDb) :
    (4 ≤ currentVersionM db → apply_migration_v4 today hour db = (db, Except.ok ())) ∧
    (currentVersionM db < 4 → db.hasSchemaVersionTable = true →
      (apply_migration_v4 today hour db).2 = Except.ok () ∧
      List.count 4 (apply_migration_v4 today hour db).1.schemaVersions = 1 ∧
      apply_migration_v4 today hour (apply_migration_v4 today hour db).1 =
        ((apply_migration_v4 today hour db).1, Except.ok ())) := by
  constructor
  · intro h
    unfold apply_migration_v4
    rw [if_pos h]
  · intro h4 hsv
    rw [apply_migration_v4_run today hour db h4 hsv]
    have hcount : List.count 4 (migratedState today hour db).schemaVersions = 1 := by
      show List.count 4 (db.schemaVersions.filter (fun v => decide (v ≠ 4)) ++ [4]) = 1
      rw [List.count_append]
      have hz : List.count 4 (db.schemaVersions.filter (fun v => decide (v ≠ 4))) = 0 := by
        rw [List.count_eq_zero]
        intro hmem
        rw [List.mem_filter] at hmem
        simpa using hmem.2
      rw [hz]
      rfl
    refine ⟨rfl, hcount, ?_⟩
    have hver : 4 ≤ currentVersionM (migratedState today hour db) := by
      unfold currentVersionM
      have hsv2 : (migratedState today hour db).hasSchemaVersionTable = true := hsv
      rw [hsv2, if_pos rfl]
      apply le_maxD_of_mem
      show (4 : Int) ∈ db.schemaVersions.filter (fun v => decide (v ≠ 4)) ++ [4]
      exact List.mem_append.mpr (Or.inr (by simp))
    unfold apply_migration_v4
    rw [if_pos hver]

/-- Witness for C4 on a concrete version-3 database: the first run
succeeds with one version-4 entry, and the second run changes
nothing. -/
theorem apply_migration_v4_idempotent_witness :
    (apply_migration_v4 0 12 dbV3).2 = Except.ok () ∧
    List.count 4 (apply_migration_v4 0 12 dbV3).1.schemaVersions = 1 ∧
    apply_migration_v4 0 12 (apply_migration_v4 0 12 dbV3).1 =
      ((apply_migration_v4 0 12 dbV3).1, Except.ok ()) :=
  (apply_migration_v4_idempotent 0 12 dbV3).2 (by decide) (by decide)

/-- A lookup that succeeds is unchanged by an INSERT OR IGNORE. -/
theorem lookupSeconds_insertOrIgnore (d h today hour : Int) (a app : String)
    (secs s : Int) (rows : List AppUsageRow)
    (hl : lookupSeconds d h a rows = some s) :
    lookupSeconds d h a (insertOrIgnoreApp today hour app secs rows) = some s := by
  unfold insertOrIgnoreApp
  split
  · exact hl
  · unfold lookupSeconds at hl ⊢
    rcases Option.map_eq_some'.mp hl with ⟨r, hr, hrs⟩
    rw [List.find?_append, hr]
    simp [hrs]

/-- C10: a migration run against a database below version 4 never
changes the `seconds_used` of an existing app_usage_stats row: the
sample-data insert uses insert-or-ignore and the rest of the run never
touches existing rows. -/
theorem apply_migration_v4_preserves_rows (today hour d h : Int) (a : String)
    (s : Int) (db : MigDb)
    (hver : currentVersionM db < 4)
    (hl : lookupSeconds d h a db.appUsageRows = some s) :
    lookupSeconds d h a (apply_migration_v4 today hour db).1.appUsageRows = some s := by
  cases hsv : db.hasSchemaVersionTable with
  | false =>
      rw [apply_migration_v4_fail today hour db hsv]
      exact hl
  | true =>
      rw [apply_migration_v4_run today hour db hver hsv]
      show lookupSeconds d h a (insertSamples today hour db.appUsageRows) = some s
      unfold insertSamples
      exact lookupSeconds_insertOrIgnore _ _ _ _ _ _ _ _ _
        (lookupSeconds_insertOrIgnore _ _ _ _ _ _ _ _ _
          (lookupSeconds_insertOrIgnore _ _ _ _ _ _ _ _ _ hl))

/-- Witness for C10: the pre-existing row (day 0, hour 12, Visual
Studio Code, 42 seconds) keeps its value through the migration even
though the migration inserts sample data under the same key. -/
theorem apply_migration_v4_preserves_rows_witness :
    lookupSeconds 0 12 "Visual Studio Code"
      (apply_migration_v4 0 12 dbV3).1.appUsageRows = some 42 :=
  apply_migration_v4_preserves_rows 0 12 0 12 "Visual Studio Code" 42 dbV3
    (by decide) (by decide)
